import Mathlib

/-!
Verification of the nlfw email-triage assistant against its specification.

The definitions below are a shallow embedding of the Python sources:
  * `clean_email_content` embeds `MailClient.clean_email_content` (mail.py lines 191-230),
    with each of the eight `re.sub` passes rendered as an executable transformation whose
    semantics (leftmost, non-overlapping matches, scan resumes after each match) mirrors
    Python's `re.sub`.
  * `create_response_draft` embeds the pure draft-construction part of
    `MailClient.create_response_draft` (mail.py lines 325-374): recipient extraction,
    subject prefixing and the threading headers.  The HTML body rendering
    (mail.py lines 338-365) is not consulted by any property below and is left out.
  * `process_recruiter_emails` embeds `MailClient.process_recruiter_emails`
    (mail.py lines 154-176) over an abstract collaborator environment `ScanEnv`;
    fallible collaborator calls are modelled with `Option`, the orchestrator's
    pydantic attribute read `analysis.is_followup` (mail.py line 167) is modelled
    by `EmailAnalysis.getBoolAttr` (it raises `AttributeError`, since the verdict
    model declares no such field), and the `try/finally` block is modelled by
    appending the disconnect event on every exit path
    (`IMAPMailHandler.disconnect`, mail.py lines 34-40, swallows all exceptions,
    so the finaliser itself never raises).
-/

/-- Whitespace as matched by Python's `re` class `\s` on `str` and stripped by
`str.strip()`: the ASCII whitespace characters together with the Unicode
whitespace code points recognised by CPython. -/
def isPySpace (c : Char) : Bool :=
  let n := c.toNat
  n = 0x20 || n = 0x9 || n = 0xa || n = 0xb || n = 0xc || n = 0xd ||
  (0x1c ≤ n && n ≤ 0x1f) || n = 0x85 || n = 0xa0 || n = 0x1680 ||
  (0x2000 ≤ n && n ≤ 0x200a) || n = 0x2028 || n = 0x2029 || n = 0x202f ||
  n = 0x205f || n = 0x3000

/-- ASCII lowercasing of a single character.  Python's `str.lower` is
Unicode-general, but every use below only ever compares against ASCII letters,
and no character outside A-Z lowercases to an ASCII letter, so the ASCII
restriction is extensionally faithful for those uses. -/
def asciiLowerChar (c : Char) : Char :=
  if 'A' ≤ c && c ≤ 'Z' then Char.ofNat (c.toNat + 32) else c

/-- Whether the character list contains a newline. -/
def hasNl : List Char → Bool
  | [] => false
  | c :: cs => c == '\n' || hasNl cs

/-- Case-sensitive test that `pat` is an initial segment of the second list. -/
def startsWithL : List Char → List Char → Bool
  | [], _ => true
  | _ :: _, [] => false
  | a :: as, b :: bs => a == b && startsWithL as bs

/-- Case-insensitive (ASCII) test that `pat` is an initial segment of the
second list; embeds `re.IGNORECASE` matching of an ASCII pattern. -/
def ciStartsWith : List Char → List Char → Bool
  | [], _ => true
  | _ :: _, [] => false
  | a :: as, b :: bs => (asciiLowerChar a == asciiLowerChar b) && ciStartsWith as bs

/-- Case-sensitive substring test. -/
def containsSub (pat : List Char) : List Char → Bool
  | [] => startsWithL pat []
  | c :: cs => startsWithL pat (c :: cs) || containsSub pat cs

/-- The rest of the list after the first occurrence of `pat`, if any. -/
def afterFirst (pat : List Char) : List Char → Option (List Char)
  | [] => if pat.isEmpty then some [] else none
  | c :: cs =>
    if startsWithL pat (c :: cs) then some ((c :: cs).drop pat.length)
    else afterFirst pat cs

/-- The current line: everything up to (excluding) the first newline. -/
def firstLine (l : List Char) : List Char := l.takeWhile (fun c => c != '\n')

/-- Generic embedding of `re.sub(pattern, rep, s)`: scan left to right; where
the matcher fires it yields the replacement text and the remainder after the
match, and scanning resumes there; otherwise the current character is kept.
`fuel` is instantiated with the length of the list, which is sufficient
because every matcher used below consumes at least one character. -/
def reSub (m : List Char → Option (List Char × List Char)) : Nat → List Char → List Char
  | 0, l => l
  | _ + 1, [] => []
  | fuel + 1, c :: cs =>
    match m (c :: cs) with
    | some (rep, rest) => rep ++ reSub m fuel rest
    | none => c :: reSub m fuel cs

/-- The suffix after the last newline of the list, if the list contains one. -/
def splitAfterLastNl : List Char → Option (List Char)
  | [] => none
  | c :: cs =>
    match splitAfterLastNl cs with
    | some r => some r
    | none => if c == '\n' then some cs else none

/-- Matcher for `re.sub(r"\n\s*\n", "\n", content)` (mail.py line 196): a
newline whose following whitespace run contains another newline matches up to
the last newline of that run (greedy `\s*` backtracking to the final `\n`),
and is replaced by a single newline. -/
def blankLineMatch : List Char → Option (List Char × List Char)
  | [] => none
  | c :: cs =>
    if c = '\n' then
      let run := cs.takeWhile isPySpace
      match splitAfterLastNl run with
      | some after => some (['\n'], after ++ cs.drop run.length)
      | none => none
    else none

/-- mail.py line 196: collapse runs of blank lines to a single newline. -/
def stripBlankLines (l : List Char) : List Char := reSub blankLineMatch l.length l

/-- Characters admitted after `://` by the URL pattern of mail.py lines 199-203:
the alternation `[a-zA-Z] | [0-9] | [$-_@.&+] | [!*\\(\\),] | %[0-9a-fA-F]{2}`.
`[$-_@.&+]` is the code-point range 0x24-0x5f (which already contains `@ . & +`,
the digits, `% ( ) * , \` and the hex letters used by the `%hh` alternative),
and of `[!*\\(\\),]` only `!` lies outside that range. -/
def isUrlChar (c : Char) : Bool :=
  let n := c.toNat
  (0x61 ≤ n && n ≤ 0x7a) || (0x41 ≤ n && n ≤ 0x5a) || (0x30 ≤ n && n ≤ 0x39) ||
  (0x24 ≤ n && n ≤ 0x5f) || n = 0x21 || n = 0x2a || n = 0x5c ||
  n = 0x28 || n = 0x29 || n = 0x2c

/-- After the literal `http`: an optional `s`, then `://`, then one or more
URL characters (greedy). Returns the remainder after the match. -/
def urlTailMatch (l : List Char) : Option (List Char) :=
  let l2 := match l with
            | 's' :: r => r
            | _ => l
  match l2 with
  | ':' :: '/' :: '/' :: rest =>
    match rest with
    | c :: _ => if isUrlChar c then some (rest.dropWhile isUrlChar) else none
    | [] => none
  | _ => none

/-- Matcher for the URL-removal `re.sub` of mail.py lines 199-203. -/
def urlMatch : List Char → Option (List Char × List Char)
  | 'h' :: 't' :: 't' :: 'p' :: rest => (urlTailMatch rest).map (fun r => ([], r))
  | _ => none

/-- mail.py lines 199-203: remove URLs. -/
def stripUrls (l : List Char) : List Char := reSub urlMatch l.length l

/-- The part of the list before its first `>` and the part after, if a `>` occurs. -/
def splitAtGt : List Char → Option (List Char × List Char)
  | [] => none
  | '>' :: cs => some ([], cs)
  | c :: cs => (splitAtGt cs).map (fun p => (c :: p.1, p.2))

/-- Matcher for `re.sub(r"<[^>]+>", "", content)` (mail.py line 204): a `<`
followed by at least one non-`>` character and a closing `>`. -/
def tagMatch : List Char → Option (List Char × List Char)
  | '<' :: cs =>
    match splitAtGt cs with
    | some (inside, rest) => if inside.isEmpty then none else some ([], rest)
    | none => none
  | _ => none

/-- mail.py line 204: remove HTML tag spans. -/
def stripTags (l : List Char) : List Char := reSub tagMatch l.length l

/-- Embeds the disclaimer subs of mail.py lines 207-218, each of shape
`re.sub(marker + r"[^\n]*\n[\s\S]*$", "", content, flags=re.IGNORECASE)`:
at the first case-insensitive occurrence of `marker` that still has a newline
somewhere after it (the pattern requires `[^\n]*` then a literal `\n`),
everything from the marker to the end of the text is removed.  A marker on the
final line with no trailing newline does not match. -/
def truncAtMarker (marker : List Char) : List Char → List Char
  | [] => []
  | c :: cs =>
    if ciStartsWith marker (c :: cs) && hasNl ((c :: cs).drop marker.length) then []
    else c :: truncAtMarker marker cs

/-- mail.py lines 207-209. -/
def truncConfidential (l : List Char) : List Char :=
  truncAtMarker "CONFIDENTIAL".data l

/-- mail.py lines 210-212. -/
def truncDisclaimer (l : List Char) : List Char :=
  truncAtMarker "DISCLAIMER".data l

/-- mail.py lines 213-218. -/
def truncPrivileged (l : List Char) : List Char :=
  truncAtMarker "Privileged/Confidential Information".data l

/-- Embeds `re.sub(r"On.*wrote:[\s\S]*$", "", content)` (mail.py line 221):
at the first `On` that has `wrote:` later on the same line (`.` does not cross
newlines), everything from the `On` to the end of the text is removed. -/
def truncOnWrote : List Char → List Char
  | [] => []
  | 'O' :: cs =>
    match cs with
    | 'n' :: cs2 =>
      if containsSub "wrote:".data (firstLine cs2) then []
      else 'O' :: truncOnWrote cs
    | _ => 'O' :: truncOnWrote cs
  | c :: cs => c :: truncOnWrote cs

/-- Embeds `re.sub(r"From:.*Sent:.*To:.*Subject:[\s\S]*$", "", content)`
(mail.py lines 222-224): at the first `From:` whose own line later contains
`Sent:`, then `To:`, then `Subject:` in order, everything from the `From:` to
the end of the text is removed. -/
def fwdSeqLine (l : List Char) : Bool :=
  match afterFirst "Sent:".data l with
  | none => false
  | some r1 =>
    match afterFirst "To:".data r1 with
    | none => false
    | some r2 => (afterFirst "Subject:".data r2).isSome

/-- mail.py lines 222-224. -/
def truncFwdHeader : List Char → List Char
  | [] => []
  | c :: cs =>
    if startsWithL "From:".data (c :: cs) &&
       fwdSeqLine (firstLine ((c :: cs).drop ("From:".data).length)) then []
    else c :: truncFwdHeader cs

/-- Embeds `re.sub(r"\s+", " ", content)` (mail.py line 227): every maximal
whitespace run becomes a single space. -/
def collapseWs : List Char → List Char
  | [] => []
  | [c] => if isPySpace c then [' '] else [c]
  | c1 :: c2 :: cs =>
    if isPySpace c1 then
      if isPySpace c2 then collapseWs (c2 :: cs)
      else ' ' :: collapseWs (c2 :: cs)
    else c1 :: collapseWs (c2 :: cs)

/-- Drop the leading whitespace run. -/
def dropLeadingWs (l : List Char) : List Char := l.dropWhile isPySpace

/-- Drop the trailing whitespace run. -/
def dropTrailingWs : List Char → List Char
  | [] => []
  | c :: cs =>
    let r := dropTrailingWs cs
    if r.isEmpty then (if isPySpace c then [] else [c]) else c :: r

/-- Embeds `re.sub(r"^\s+|\s+$", "", content, flags=re.MULTILINE)`
(mail.py line 228).  Its input is the output of line 227, which contains no
newline, so the MULTILINE line anchors coincide with the ends of the whole
string and the sub strips the leading and trailing whitespace runs. -/
def pyMultilineStrip (l : List Char) : List Char := dropTrailingWs (dropLeadingWs l)

/-- Embeds Python's `str.strip()` (mail.py line 230). -/
def pyStrip (l : List Char) : List Char := dropTrailingWs (dropLeadingWs l)

/-- `MailClient.clean_email_content` (mail.py lines 191-230): the eight `re.sub`
passes followed by `.strip()`, applied in source order. -/
def clean_email_content (s : String) : String :=
  let l := s.data
  let l := stripBlankLines l
  let l := stripUrls l
  let l := stripTags l
  let l := truncConfidential l
  let l := truncDisclaimer l
  let l := truncPrivileged l
  let l := truncOnWrote l
  let l := truncFwdHeader l
  let l := collapseWs l
  let l := pyMultilineStrip l
  let l := pyStrip l
  String.mk l

/-! ## Data model -/

/-- `EmailMessage` (interface.py lines 9-15).  The `datetime` field is modelled
by its only rendering the draft composer would use (`strftime`, mail.py
line 339); no property below depends on it. -/
structure EmailMessage where
  subject : String
  sender : String
  body : String
  date : String
  message_id : String
deriving DecidableEq, Repr

/-- The classification verdict as the classifier actually produces it: the
pydantic `EmailAnalysis` model of interface.py lines 18-22, with exactly the
declared fields.  The orchestrator (mail.py line 167), the tests
(test_mail.py line 288) and the database record (database.py line 18)
additionally expect an `is_followup` field; its absence from this model is
the subject of C1. -/
structure EmailAnalysis where
  is_recruiter : Bool
  mentions_topics : Bool
  recruiter_explanation : String
  topic_explanation : String
deriving DecidableEq, Repr

/-- The field names actually declared on the `EmailAnalysis` pydantic model,
interface.py lines 18-22, in declaration order. -/
def interfaceEmailAnalysisFields : List String :=
  ["is_recruiter", "mentions_topics", "recruiter_explanation", "topic_explanation"]

/-- The attribute the orchestrator reads on the classification verdict in its
per-message branch, mail.py line 167 (`analysis.is_followup`). -/
def orchestratorFollowupRead : String := "is_followup"

/-- Pydantic attribute lookup on a model instance succeeds exactly for the
declared fields; an undeclared attribute raises `AttributeError`. -/
def pydanticHasAttr (declared : List String) (attr : String) : Bool :=
  declared.contains attr

/-- Pydantic boolean-attribute access on an `EmailAnalysis` instance: it
yields the field value exactly for the declared boolean fields
(interface.py lines 19-20); any other attribute name raises
`AttributeError`, modelled as `none`. -/
def EmailAnalysis.getBoolAttr (a : EmailAnalysis) (attr : String) : Option Bool :=
  if attr = "is_recruiter" then some a.is_recruiter
  else if attr = "mentions_topics" then some a.mentions_topics
  else none

/-! ## Draft composer -/

/-- The draft as materialised by `create_response_draft`: recipient, subject
and the two threading headers (mail.py lines 325-336 and 369-374).  The HTML
body (lines 338-365) is not modelled; no property below concerns it. -/
structure DraftSpec where
  to_address : String
  subject : String
  in_reply_to : String
  references : String
deriving DecidableEq, Repr

/-- Embeds `re.search(r"<(.+?)>", sender)` (mail.py line 327): the group of
the leftmost match.  At each `<` the lazy `(.+?)` reaches the first later `>`
that leaves at least one interior character, none of which may be a newline
(`.` does not match `\n`); if no such `>` exists the search continues at the
next position. -/
def extractAddr : List Char → Option (List Char)
  | [] => none
  | '<' :: cs =>
    match
      (match cs with
       | [] => none
       | c :: cs2 =>
         if c == '\n' then none
         else
           match splitAtGt cs2 with
           | some (pre, _) => if hasNl pre then none else some (c :: pre)
           | none => none) with
    | some g => some g
    | none => extractAddr cs
  | _ :: cs => extractAddr cs

/-- The pure draft construction of `MailClient.create_response_draft`
(mail.py lines 314-374): recipient from the bracketed sender address or the
stripped sender string (lines 327-331), `Re:` subject prefixing unless the
subject already starts with a case-insensitive `re:` (lines 334-336), and both
threading headers set to the original message identifier (lines 373-374).
The source has no failure path for a missing recipient: whatever
`email_msg.sender.strip()` yields, including the empty string, becomes the
`To` header. -/
def create_response_draft (email_msg : EmailMessage) (_response_body : String) : DraftSpec :=
  let to_address : String :=
    match extractAddr email_msg.sender.data with
    | some g => String.mk g
    | none => String.mk (pyStrip email_msg.sender.data)
  let subject : String :=
    if startsWithL "re:".data (email_msg.subject.data.map asciiLowerChar) then
      email_msg.subject
    else "Re: " ++ email_msg.subject
  { to_address := to_address
    subject := subject
    in_reply_to := email_msg.message_id
    references := email_msg.message_id }

/-! ## Orchestrator -/

/-- One collaborator call made during a scan; used to audit how often the
mail connection is released. -/
inductive MailEvent
  | connect
  | getInbox
  | searchUnread
  | fetchMsg
  | classifyCall
  | generateCall
  | draftAppend
  | disconnect
deriving DecidableEq, Repr

/-- Abstract collaborator environment for one scan of
`MailClient.process_recruiter_emails`.  Calls that can raise in Python are
modelled with `Option`/`Bool` outcomes:
`connectOk` — `self.connect()` (mail.py line 162);
`inboxOk` — `get_inbox()` (line 181);
`unreadIds` — `search_unread()` (line 182);
`fetch` — `fetch_message` + `parse_email_message` (lines 186-187);
`classify` — `analyze_email`, the structured LLM call (line 166);
`generate` — `generate_response` (line 171);
`draftOk` — the IMAP append inside `create_response_draft` (lines 382-402). -/
structure ScanEnv where
  connectOk : Bool
  inboxOk : Bool
  unreadIds : Option (List String)
  fetch : String → Option EmailMessage
  classify : EmailMessage → Option EmailAnalysis
  generate : EmailMessage → Option String
  draftOk : EmailMessage → Bool

/-- Outcome of one scan: the drafts submitted to the Drafts folder in order,
the collaborator events in order, and whether the scan re-raised an
exception. -/
structure ScanResult where
  drafts : List DraftSpec
  events : List MailEvent
  raised : Bool

/-- Fetch-and-parse loop of `get_unread_messages` (mail.py lines 185-187). -/
def fetchAll (env : ScanEnv) : List String → Option (List EmailMessage) × List MailEvent
  | [] => (some [], [])
  | i :: is =>
    match env.fetch i with
    | none => (none, [MailEvent.fetchMsg])
    | some m =>
      let p := fetchAll env is
      (p.1.map (fun ms => m :: ms), MailEvent.fetchMsg :: p.2)

/-- `MailClient.get_unread_messages` (mail.py lines 179-189): select the
inbox, list unread identifiers, fetch and parse the first `limit` of them
(the orchestrator uses the default limit of 10). -/
def get_unread_messages (env : ScanEnv) : Option (List EmailMessage) × List MailEvent :=
  if !env.inboxOk then (none, [MailEvent.getInbox])
  else
    match env.unreadIds with
    | none => (none, [MailEvent.getInbox, MailEvent.searchUnread])
    | some ids =>
      let p := fetchAll env (ids.take 10)
      (p.1, MailEvent.getInbox :: MailEvent.searchUnread :: p.2)

/-- Per-message loop of `process_recruiter_emails` (mail.py lines 165-173):
classify, then read `analysis.is_followup` (line 167).  That attribute is
not declared on the verdict model, so the read raises `AttributeError`
(`EmailAnalysis.getBoolAttr` yields `none` for it), aborting the scan before
the branch; the skip/draft branch below transcribes lines 167-173 and is
reachable only for an attribute read that succeeds.  The line-170 reads
`analysis.is_recruiter` and `analysis.mentions_topics` are declared fields
and appear as plain projections.  A failing collaborator call also raises;
the code catches nothing inside the loop. -/
def processLoop (env : ScanEnv) : List EmailMessage → List DraftSpec × List MailEvent × Bool
  | [] => ([], [], false)
  | m :: rest =>
    match env.classify m with
    | none => ([], [MailEvent.classifyCall], true)
    | some analysis =>
      match analysis.getBoolAttr orchestratorFollowupRead with
      | none => ([], [MailEvent.classifyCall], true)
      | some is_followup =>
       if is_followup then
         let p := processLoop env rest
         (p.1, MailEvent.classifyCall :: p.2.1, p.2.2)
       else if analysis.is_recruiter && !analysis.mentions_topics then
         match env.generate m with
         | none => ([], [MailEvent.classifyCall, MailEvent.generateCall], true)
         | some response =>
           if env.draftOk m then
             let p := processLoop env rest
             (create_response_draft m response :: p.1,
              MailEvent.classifyCall :: MailEvent.generateCall ::
                MailEvent.draftAppend :: p.2.1, p.2.2)
           else ([], [MailEvent.classifyCall, MailEvent.generateCall,
                      MailEvent.draftAppend], true)
       else
         let p := processLoop env rest
         (p.1, MailEvent.classifyCall :: p.2.1, p.2.2)

/-- Body of the `try` block of `process_recruiter_emails`
(mail.py lines 162-173). -/
def scanBody (env : ScanEnv) : List DraftSpec × List MailEvent × Bool :=
  if !env.connectOk then ([], [MailEvent.connect], true)
  else
    match (get_unread_messages env).1 with
    | none => ([], MailEvent.connect :: (get_unread_messages env).2, true)
    | some msgs =>
      let p := processLoop env msgs
      (p.1, MailEvent.connect :: (get_unread_messages env).2 ++ p.2.1, p.2.2)

/-- `MailClient.process_recruiter_emails` (mail.py lines 154-176): the scan
body wrapped in `try/finally`, whose finaliser calls `self.disconnect()`
exactly once on every exit path; `IMAPMailHandler.disconnect` (mail.py lines
34-40) swallows its own exceptions, so the finaliser never raises and the
original outcome (return or exception) is preserved. -/
def process_recruiter_emails (env : ScanEnv) : ScanResult :=
  let p := scanBody env
  { drafts := p.1, events := p.2.1 ++ [MailEvent.disconnect], raised := p.2.2 }

/-- Count of disconnect events in a trace. -/
def countDisconnects : List MailEvent → Nat
  | [] => 0
  | e :: es => (if e = MailEvent.disconnect then 1 else 0) + countDisconnects es

/-! ## Shape predicates on normalizer output -/

/-- Every whitespace character in the list is a plain space. -/
def wsOnlySpaceB (l : List Char) : Bool := l.all (fun c => !isPySpace c || c == ' ')

/-- No two adjacent characters are both whitespace. -/
def wsCollapsedB : List Char → Bool
  | [] => true
  | [_] => true
  | a :: b :: cs => !(isPySpace a && isPySpace b) && wsCollapsedB (b :: cs)

/-- The list does not start with a whitespace character. -/
def noLeadWsB : List Char → Bool
  | [] => true
  | c :: _ => !isPySpace c

/-- The list does not end with a whitespace character. -/
def noTrailWsB : List Char → Bool
  | [] => true
  | [c] => !isPySpace c
  | _ :: cs => noTrailWsB cs

/-! ## Concrete scan environments -/

/-- A collaborator environment with a single unread message whose
classification verdict and generated reply are given; every collaborator
call succeeds. -/
def oneMsgEnv (m : EmailMessage) (a : EmailAnalysis) (r : String) : ScanEnv :=
  { connectOk := true
    inboxOk := true
    unreadIds := some ["1"]
    fetch := fun _ => some m
    classify := fun _ => some a
    generate := fun _ => some r
    draftOk := fun _ => true }

/-- A recruiter outreach message (no topic mention, not a follow-up),
patterned on the first fixture of test_mail.py. -/
def recruiterMsg : EmailMessage :=
  { subject := "Exciting Software Engineering Opportunity at TechCorp"
    sender := "Jane Recruiter <recruiter@techcorp.com>"
    body := "We have an exciting position at TechCorp."
    date := "Thu, Mar 14, 2024 at 10:00 AM"
    message_id := "<test_1@example.com>" }

/-- The classification verdict for `recruiterMsg`: a recruiter message that
mentions no configured topic (the verdict model declares no follow-up
field). -/
def recruiterVerdict : EmailAnalysis :=
  { is_recruiter := true
    mentions_topics := false
    recruiter_explanation := "recruiter outreach about a role"
    topic_explanation := "no configured topic mentioned" }

/-- The environment of a scan in which message identifier 1 — the message
`recruiterMsg` — is reported unread, with a successful classification and
every collaborator call succeeding. -/
def recruiterScanEnv : ScanEnv :=
  oneMsgEnv recruiterMsg recruiterVerdict "Thanks for reaching out!"

/-- The drafts accumulated over `n` runs of the scan against the same
environment.  The code holds no state between scans (mail.py keeps nothing
across calls of `process_recruiter_emails`), so re-running a scan over the
same unread set is a repeated application of the same function. -/
def repeatedScanDrafts (env : ScanEnv) : Nat → List DraftSpec
  | 0 => []
  | n + 1 => (process_recruiter_emails env).drafts ++ repeatedScanDrafts env n

/-! ## Helper lemmas -/

theorem collapseWs_cons_of_not_ws (c : Char) (cs : List Char) (h : isPySpace c = false) :
    collapseWs (c :: cs) = c :: collapseWs cs := by
  cases cs <;> simp [collapseWs, h]

theorem wsOnlySpaceB_collapseWs : ∀ l : List Char, wsOnlySpaceB (collapseWs l) = true := by
  intro l
  induction l with
  | nil => rfl
  | cons c cs ih =>
    cases cs with
    | nil =>
      by_cases hc : isPySpace c = true <;>
        simp_all [collapseWs, wsOnlySpaceB]
    | cons d ds =>
      by_cases hc : isPySpace c = true
      · by_cases hd : isPySpace d = true
        · simpa [collapseWs, hc, hd] using ih
        · simp only [collapseWs, hc, hd, if_true]
          simp only [Bool.not_eq_true] at hd
          simpa [wsOnlySpaceB] using ih
      · simp only [Bool.not_eq_true] at hc
        rw [collapseWs_cons_of_not_ws c (d :: ds) hc]
        simp only [wsOnlySpaceB, List.all_cons, hc]
        simpa [wsOnlySpaceB] using ih

theorem wsCollapsedB_cons_of (a : Char) (l : List Char) (h1 : wsCollapsedB l = true)
    (h2 : ∀ b, l.head? = some b → (isPySpace a && isPySpace b) = false) :
    wsCollapsedB (a :: l) = true := by
  cases l with
  | nil => rfl
  | cons b bs =>
    simp only [wsCollapsedB, Bool.and_eq_true, Bool.not_eq_true']
    exact ⟨h2 b rfl, h1⟩

theorem wsCollapsedB_collapseWs : ∀ l : List Char, wsCollapsedB (collapseWs l) = true := by
  intro l
  induction l with
  | nil => rfl
  | cons c cs ih =>
    cases cs with
    | nil => by_cases hc : isPySpace c = true <;> simp [collapseWs, hc, wsCollapsedB]
    | cons d ds =>
      by_cases hc : isPySpace c = true
      · by_cases hd : isPySpace d = true
        · simpa [collapseWs, hc, hd] using ih
        · simp only [collapseWs, hc, hd, if_true]
          simp only [Bool.not_eq_true] at hd
          refine wsCollapsedB_cons_of _ _ ih ?_
          intro b hb
          rw [collapseWs_cons_of_not_ws d ds hd] at hb
          simp only [List.head?_cons, Option.some.injEq] at hb
          subst hb
          simp [hd]
      · simp only [Bool.not_eq_true] at hc
        rw [collapseWs_cons_of_not_ws c (d :: ds) hc]
        refine wsCollapsedB_cons_of _ _ ih ?_
        intro b _
        simp [hc]

theorem wsCollapsedB_tail (a : Char) (l : List Char) (h : wsCollapsedB (a :: l) = true) :
    wsCollapsedB l = true := by
  cases l with
  | nil => rfl
  | cons b bs => simp only [wsCollapsedB, Bool.and_eq_true] at h; exact h.2

theorem wsOnlySpaceB_dropWhile (p : Char → Bool) :
    ∀ l : List Char, wsOnlySpaceB l = true → wsOnlySpaceB (l.dropWhile p) = true := by
  intro l
  induction l with
  | nil => intro h; exact h
  | cons c cs ih =>
    intro h
    simp only [wsOnlySpaceB, List.all_cons, Bool.and_eq_true] at h
    by_cases hc : p c = true
    · simp only [List.dropWhile_cons, hc, if_true]
      exact ih h.2
    · have hd : List.dropWhile p (c :: cs) = c :: cs := by simp [List.dropWhile_cons, hc]
      rw [hd]
      simp only [wsOnlySpaceB, List.all_cons, Bool.and_eq_true]
      exact ⟨h.1, h.2⟩

theorem wsCollapsedB_dropWhile (p : Char → Bool) :
    ∀ l : List Char, wsCollapsedB l = true → wsCollapsedB (l.dropWhile p) = true := by
  intro l
  induction l with
  | nil => intro h; exact h
  | cons c cs ih =>
    intro h
    by_cases hc : p c = true
    · simp only [List.dropWhile_cons, hc, if_true]
      exact ih (wsCollapsedB_tail c cs h)
    · simpa [List.dropWhile_cons, hc] using h

theorem noTrailWsB_tail (a : Char) (l : List Char) (h : noTrailWsB (a :: l) = true) :
    noTrailWsB l = true := by
  cases l with
  | nil => rfl
  | cons b bs => exact h

theorem noTrailWsB_dropWhile (p : Char → Bool) :
    ∀ l : List Char, noTrailWsB l = true → noTrailWsB (l.dropWhile p) = true := by
  intro l
  induction l with
  | nil => intro h; exact h
  | cons c cs ih =>
    intro h
    by_cases hc : p c = true
    · simp only [List.dropWhile_cons, hc, if_true]
      exact ih (noTrailWsB_tail c cs h)
    · simpa [List.dropWhile_cons, hc] using h

theorem noLeadWsB_dropLeadingWs : ∀ l : List Char, noLeadWsB (dropLeadingWs l) = true := by
  intro l
  induction l with
  | nil => rfl
  | cons c cs ih =>
    by_cases hc : isPySpace c = true
    · simpa [dropLeadingWs, List.dropWhile_cons, hc] using ih
    · simp [dropLeadingWs, List.dropWhile_cons, hc, noLeadWsB]

theorem dropTrailingWs_cons (c : Char) (cs : List Char) :
    dropTrailingWs (c :: cs) =
      if (dropTrailingWs cs).isEmpty then (if isPySpace c then [] else [c])
      else c :: dropTrailingWs cs := rfl

theorem dropTrailingWs_eq_append : ∀ l : List Char, ∃ t, dropTrailingWs l ++ t = l := by
  intro l
  induction l with
  | nil => exact ⟨[], rfl⟩
  | cons c cs ih =>
    obtain ⟨t, ht⟩ := ih
    by_cases hr : (dropTrailingWs cs).isEmpty = true
    · by_cases hc : isPySpace c = true
      · exact ⟨c :: cs, by simp [dropTrailingWs, hr, hc]⟩
      · refine ⟨cs, ?_⟩
        simp [dropTrailingWs, hr, hc]
    · refine ⟨t, ?_⟩
      simp only [dropTrailingWs, hr, if_false]
      simpa using ht

theorem wsCollapsedB_append_left :
    ∀ xs ys : List Char, wsCollapsedB (xs ++ ys) = true → wsCollapsedB xs = true := by
  intro xs
  induction xs with
  | nil => intro ys _; rfl
  | cons x xs' ih =>
    intro ys h
    cases xs' with
    | nil => rfl
    | cons x2 rest =>
      simp only [List.cons_append, wsCollapsedB, Bool.and_eq_true] at h ⊢
      exact ⟨h.1, ih ys h.2⟩

theorem wsOnlySpaceB_append_left :
    ∀ xs ys : List Char, wsOnlySpaceB (xs ++ ys) = true → wsOnlySpaceB xs = true := by
  intro xs ys h
  simp only [wsOnlySpaceB, List.all_append, Bool.and_eq_true] at h
  exact h.1

theorem noTrailWsB_dropTrailingWs : ∀ l : List Char, noTrailWsB (dropTrailingWs l) = true := by
  intro l
  induction l with
  | nil => rfl
  | cons c cs ih =>
    by_cases hr : (dropTrailingWs cs).isEmpty = true
    · by_cases hc : isPySpace c = true
      · simp [dropTrailingWs, hr, hc, noTrailWsB]
      · simp [dropTrailingWs, hr, hc, noTrailWsB]
    · simp only [dropTrailingWs, hr, if_false]
      cases hd : dropTrailingWs cs with
      | nil => rw [hd] at hr; simp at hr
      | cons d ds =>
        rw [hd] at ih
        simpa [noTrailWsB] using ih

theorem dropTrailingWs_head :
    ∀ l : List Char, dropTrailingWs l = [] ∨ (dropTrailingWs l).head? = l.head? := by
  intro l
  induction l with
  | nil => exact Or.inl rfl
  | cons c cs _ =>
    by_cases hr : (dropTrailingWs cs).isEmpty = true
    · by_cases hc : isPySpace c = true
      · exact Or.inl (by simp [dropTrailingWs, hr, hc])
      · exact Or.inr (by simp [dropTrailingWs, hr, hc])
    · exact Or.inr (by simp [dropTrailingWs, hr])

theorem noLeadWsB_dropTrailingWs (l : List Char) (h : noLeadWsB l = true) :
    noLeadWsB (dropTrailingWs l) = true := by
  rcases dropTrailingWs_head l with h1 | h1
  · rw [h1]; rfl
  · cases hd : dropTrailingWs l with
    | nil => rfl
    | cons d ds =>
      rw [hd] at h1
      cases l with
      | nil => simp at h1
      | cons c cs =>
        simp only [List.head?_cons, Option.some.injEq] at h1
        subst h1
        exact h

theorem wsCollapsedB_dropTrailingWs (l : List Char) (h : wsCollapsedB l = true) :
    wsCollapsedB (dropTrailingWs l) = true := by
  obtain ⟨t, ht⟩ := dropTrailingWs_eq_append l
  apply wsCollapsedB_append_left _ t
  rw [ht]
  exact h

theorem wsOnlySpaceB_dropTrailingWs (l : List Char) (h : wsOnlySpaceB l = true) :
    wsOnlySpaceB (dropTrailingWs l) = true := by
  obtain ⟨t, ht⟩ := dropTrailingWs_eq_append l
  apply wsOnlySpaceB_append_left _ t
  rw [ht]
  exact h

theorem noTrailWsB_dropLeadingWs (l : List Char) (h : noTrailWsB l = true) :
    noTrailWsB (dropLeadingWs l) = true :=
  noTrailWsB_dropWhile isPySpace l h

theorem hasNl_eq_false_of_wsOnlySpaceB :
    ∀ l : List Char, wsOnlySpaceB l = true → hasNl l = false := by
  intro l
  induction l with
  | nil => intro _; rfl
  | cons c cs ih =>
    intro h
    simp only [wsOnlySpaceB, List.all_cons, Bool.and_eq_true] at h
    have hc : (c == '\n') = false := by
      by_cases hc' : c = '\n'
      · subst hc'
        have : (!isPySpace '\n' || ('\n' == ' ')) = false := by decide
        rw [this] at h
        exact absurd h.1 (by decide)
      · simp [hc']
    simp only [hasNl, hc, Bool.false_or]
    exact ih h.2

/-- The composite of the final three normalizer stages (mail.py lines 227-230)
leaves only single interior spaces and no edge whitespace, whatever list it
is given. -/
theorem finalStage_props (l : List Char) :
    wsOnlySpaceB (pyStrip (pyMultilineStrip (collapseWs l))) = true ∧
    wsCollapsedB (pyStrip (pyMultilineStrip (collapseWs l))) = true ∧
    noLeadWsB (pyStrip (pyMultilineStrip (collapseWs l))) = true ∧
    noTrailWsB (pyStrip (pyMultilineStrip (collapseWs l))) = true := by
  simp only [pyStrip, pyMultilineStrip, dropLeadingWs]
  have h1 := wsOnlySpaceB_collapseWs l
  have h2 := wsCollapsedB_collapseWs l
  -- after the first dropWhile
  have a1 := wsOnlySpaceB_dropWhile isPySpace _ h1
  have a2 := wsCollapsedB_dropWhile isPySpace _ h2
  have a3 := noLeadWsB_dropLeadingWs (collapseWs l)
  simp only [dropLeadingWs] at a3
  -- after the first dropTrailingWs
  have b1 := wsOnlySpaceB_dropTrailingWs _ a1
  have b2 := wsCollapsedB_dropTrailingWs _ a2
  have b3 := noLeadWsB_dropTrailingWs _ a3
  have b4 := noTrailWsB_dropTrailingWs ((collapseWs l).dropWhile isPySpace)
  -- after the second dropWhile
  have c1 := wsOnlySpaceB_dropWhile isPySpace _ b1
  have c2 := wsCollapsedB_dropWhile isPySpace _ b2
  have c3 := noLeadWsB_dropLeadingWs (dropTrailingWs ((collapseWs l).dropWhile isPySpace))
  simp only [dropLeadingWs] at c3
  have c4 := noTrailWsB_dropWhile isPySpace _ b4
  -- after the second dropTrailingWs
  exact ⟨wsOnlySpaceB_dropTrailingWs _ c1, wsCollapsedB_dropTrailingWs _ c2,
    noLeadWsB_dropTrailingWs _ c3, noTrailWsB_dropTrailingWs _⟩

/-- The normalizer output is whitespace-normal: only single spaces, no runs,
no edge whitespace. -/
theorem clean_email_content_props (s : String) :
    wsOnlySpaceB (clean_email_content s).data = true ∧
    wsCollapsedB (clean_email_content s).data = true ∧
    noLeadWsB (clean_email_content s).data = true ∧
    noTrailWsB (clean_email_content s).data = true := by
  simp only [clean_email_content]
  exact finalStage_props _

theorem hasNl_tail (c : Char) (cs : List Char) (h : hasNl (c :: cs) = false) :
    hasNl cs = false := by
  simp only [hasNl, Bool.or_eq_false_iff] at h
  exact h.2

theorem hasNl_head (c : Char) (cs : List Char) (h : hasNl (c :: cs) = false) : c ≠ '\n' := by
  simp only [hasNl, Bool.or_eq_false_iff] at h
  intro hc
  subst hc
  simp at h

theorem hasNl_drop (n : Nat) :
    ∀ l : List Char, hasNl l = false → hasNl (l.drop n) = false := by
  induction n with
  | zero => intro l h; simpa using h
  | succ k ih =>
    intro l h
    cases l with
    | nil => rfl
    | cons c cs => exact ih cs (hasNl_tail c cs h)

theorem reSub_blankLineMatch_noop :
    ∀ (f : Nat) (l : List Char), hasNl l = false → reSub blankLineMatch f l = l := by
  intro f
  induction f with
  | zero => intro l _; rfl
  | succ k ih =>
    intro l h
    cases l with
    | nil => rfl
    | cons c cs =>
      have hc : c ≠ '\n' := hasNl_head c cs h
      simp only [reSub, blankLineMatch, hc, if_false]
      rw [ih cs (hasNl_tail c cs h)]

theorem stripBlankLines_noop (l : List Char) (h : hasNl l = false) : stripBlankLines l = l :=
  reSub_blankLineMatch_noop l.length l h

theorem truncAtMarker_noop (marker : List Char) :
    ∀ l : List Char, hasNl l = false → truncAtMarker marker l = l := by
  intro l
  induction l with
  | nil => intro _; rfl
  | cons c cs ih =>
    intro h
    have hd : hasNl ((c :: cs).drop marker.length) = false := hasNl_drop _ _ h
    simp only [truncAtMarker, hd, Bool.and_false, if_false]
    rw [ih (hasNl_tail c cs h)]
    simp

theorem collapseWs_noop :
    ∀ l : List Char, wsCollapsedB l = true → wsOnlySpaceB l = true → collapseWs l = l := by
  intro l
  induction l with
  | nil => intro _ _; rfl
  | cons c cs ih =>
    intro h1 h2
    cases cs with
    | nil =>
      by_cases hc : isPySpace c = true
      · have hsp : c = ' ' := by
          simp only [wsOnlySpaceB, List.all_cons, hc, Bool.not_true, Bool.false_or,
            Bool.and_eq_true, beq_iff_eq] at h2
          exact h2.1
        simp [collapseWs, hc, hsp]
      · simp [collapseWs, hc]
    | cons d ds =>
      have hpair : (isPySpace c && isPySpace d) = false := by
        simp only [wsCollapsedB, Bool.and_eq_true, Bool.not_eq_true'] at h1
        exact h1.1
      have htl1 : wsCollapsedB (d :: ds) = true := wsCollapsedB_tail c _ h1
      have htl2 : wsOnlySpaceB (d :: ds) = true := by
        simp only [wsOnlySpaceB, List.all_cons, Bool.and_eq_true] at h2
        simpa [wsOnlySpaceB] using h2.2
      by_cases hc : isPySpace c = true
      · have hd : isPySpace d = false := by
          cases hdd : isPySpace d
          · rfl
          · rw [hc, hdd] at hpair; simp at hpair
        have hsp : c = ' ' := by
          simp only [wsOnlySpaceB, List.all_cons, hc, Bool.not_true, Bool.false_or,
            Bool.and_eq_true, beq_iff_eq] at h2
          exact h2.1
        simp only [collapseWs, hc, hd, if_true, if_false]
        rw [ih htl1 htl2, hsp]
        simp
      · simp only [collapseWs, hc, if_false]
        rw [ih htl1 htl2]
        simp [hc]

theorem dropLeadingWs_noop (l : List Char) (h : noLeadWsB l = true) : dropLeadingWs l = l := by
  cases l with
  | nil => rfl
  | cons c cs =>
    simp only [noLeadWsB, Bool.not_eq_true'] at h
    simp [dropLeadingWs, List.dropWhile_cons, h]

theorem dropTrailingWs_noop : ∀ l : List Char, noTrailWsB l = true → dropTrailingWs l = l := by
  intro l
  induction l with
  | nil => intro _; rfl
  | cons c cs ih =>
    intro h
    cases cs with
    | nil =>
      simp only [noTrailWsB, Bool.not_eq_true'] at h
      simp [dropTrailingWs, h]
    | cons d ds =>
      have htl : noTrailWsB (d :: ds) = true := noTrailWsB_tail c _ h
      have hr : dropTrailingWs (d :: ds) = d :: ds := ih htl
      rw [dropTrailingWs_cons, hr]
      simp

theorem String_mk_data (s : String) : String.mk s.data = s := rfl

/-- A string on which the four content-sensitive passes of the normalizer act
as the identity is a fixed point of the whole normalizer, provided it is
already whitespace-normal and newline-free. -/
theorem clean_email_content_fixed (y : String)
    (hnl : hasNl y.data = false)
    (p1 : wsOnlySpaceB y.data = true) (p2 : wsCollapsedB y.data = true)
    (p3 : noLeadWsB y.data = true) (p4 : noTrailWsB y.data = true)
    (h1 : stripUrls y.data = y.data) (h2 : stripTags y.data = y.data)
    (h3 : truncOnWrote y.data = y.data) (h4 : truncFwdHeader y.data = y.data) :
    clean_email_content y = y := by
  simp only [clean_email_content, truncConfidential, truncDisclaimer, truncPrivileged,
    pyMultilineStrip, pyStrip]
  rw [stripBlankLines_noop _ hnl, h1, h2, truncAtMarker_noop _ _ hnl,
    truncAtMarker_noop _ _ hnl, truncAtMarker_noop _ _ hnl, h3, h4,
    collapseWs_noop _ p2 p1, dropLeadingWs_noop _ p3, dropTrailingWs_noop _ p4,
    dropLeadingWs_noop _ p3, dropTrailingWs_noop _ p4]

theorem startsWithL_map_lower (pat : List Char) (hpat : ∀ a ∈ pat, asciiLowerChar a = a) :
    ∀ s : List Char, startsWithL pat (s.map asciiLowerChar) = ciStartsWith pat s := by
  induction pat with
  | nil => intro s; cases s <;> rfl
  | cons a as ih =>
    intro s
    cases s with
    | nil => rfl
    | cons b bs =>
      simp only [List.map_cons, startsWithL, ciStartsWith]
      rw [hpat a (by simp)]
      rw [ih (fun x hx => hpat x (by simp [hx])) bs]

theorem countDisconnects_append (a b : List MailEvent) :
    countDisconnects (a ++ b) = countDisconnects a + countDisconnects b := by
  induction a with
  | nil => simp [countDisconnects]
  | cons e es ih => simp [countDisconnects, ih, Nat.add_assoc]

theorem countDisconnects_fetchAll (env : ScanEnv) :
    ∀ ids : List String, countDisconnects (fetchAll env ids).2 = 0 := by
  intro ids
  induction ids with
  | nil => rfl
  | cons i is ih =>
    cases hf : env.fetch i with
    | none => simp [fetchAll, hf, countDisconnects]
    | some m => simp [fetchAll, hf, countDisconnects, ih]

theorem countDisconnects_get_unread (env : ScanEnv) :
    countDisconnects (get_unread_messages env).2 = 0 := by
  by_cases hi : env.inboxOk = true
  · cases hu : env.unreadIds with
    | none => simp [get_unread_messages, hi, hu, countDisconnects]
    | some ids =>
      simp [get_unread_messages, hi, hu, countDisconnects, countDisconnects_fetchAll]
  · simp [get_unread_messages, hi, countDisconnects]

theorem getBoolAttr_followup (a : EmailAnalysis) :
    a.getBoolAttr orchestratorFollowupRead = none := rfl

theorem countDisconnects_processLoop (env : ScanEnv) :
    ∀ msgs : List EmailMessage, countDisconnects (processLoop env msgs).2.1 = 0 := by
  intro msgs
  cases msgs with
  | nil => rfl
  | cons m rest =>
    cases hc : env.classify m with
    | none => simp [processLoop, hc, countDisconnects]
    | some a => simp [processLoop, hc, getBoolAttr_followup, countDisconnects]

theorem processLoop_drafts_nil (env : ScanEnv) :
    ∀ msgs : List EmailMessage, (processLoop env msgs).1 = [] := by
  intro msgs
  cases msgs with
  | nil => rfl
  | cons m rest =>
    cases hc : env.classify m with
    | none => simp [processLoop, hc]
    | some a => simp [processLoop, hc, getBoolAttr_followup]

theorem scanBody_drafts_nil (env : ScanEnv) : (scanBody env).1 = [] := by
  by_cases hc : env.connectOk = true
  · cases hu : (get_unread_messages env).1 with
    | none => simp [scanBody, hc, hu]
    | some msgs => simp [scanBody, hc, hu, processLoop_drafts_nil]
  · simp [scanBody, hc]

theorem process_recruiter_emails_drafts_nil (env : ScanEnv) :
    (process_recruiter_emails env).drafts = [] := by
  simp [process_recruiter_emails, scanBody_drafts_nil]

theorem countDisconnects_scanBody (env : ScanEnv) :
    countDisconnects (scanBody env).2.1 = 0 := by
  by_cases hc : env.connectOk = true
  · cases hu : (get_unread_messages env).1 with
    | none =>
      have := countDisconnects_get_unread env
      simp [scanBody, hc, hu, countDisconnects, this]
    | some msgs =>
      have h1 := countDisconnects_get_unread env
      have h2 := countDisconnects_processLoop env msgs
      simp [scanBody, hc, hu, countDisconnects, countDisconnects_append, h1, h2]
  · simp [scanBody, hc, countDisconnects]

/-! ## Claims -/

/-- C1: the claim says every successful classification call returns a verdict
carrying the three booleans `is_recruiter`, `mentions_topics`, `is_followup`
plus the two explanation strings, and that the orchestrator branches on the
verdict's `is_followup`.  The orchestrator (mail.py line 167) and the tests
(test_mail.py line 288) indeed read `is_followup`, but the pydantic model the
classifier parses into (interface.py lines 18-22) does not declare that
field, so the attribute read raises `AttributeError`: the code contradicts
its own tests. -/
theorem C1_verdict_missing_followup_field :
    pydanticHasAttr interfaceEmailAnalysisFields orchestratorFollowupRead = false := by
  decide

/-- C2: running the scan any number of times over the same unread set
produces at most one draft per message identifier.  This is true of the
code, though vacuously: every scan that classifies a message aborts with
`AttributeError` at the `is_followup` read (mail.py line 167, the bug
settled in C1) before any draft is composed, so no scan ever submits a
draft at all and the bound holds for every environment, identifier and
number of repetitions. -/
theorem C2_at_most_one_draft (env : ScanEnv) (n : Nat) (msgId : String) :
    (process_recruiter_emails env).drafts = [] ∧
    ((repeatedScanDrafts env n).filter
      (fun d => d.in_reply_to == msgId)).length ≤ 1 := by
  refine ⟨process_recruiter_emails_drafts_nil env, ?_⟩
  have h : repeatedScanDrafts env n = [] := by
    induction n with
    | zero => rfl
    | succ k ih => simp [repeatedScanDrafts, process_recruiter_emails_drafts_nil, ih]
  simp [h]

/-- C3: the claim says a draft is created and submitted exactly for a
non-follow-up recruiter message with no topic mention, and that follow-ups
are skipped.  The code never executes that branch: on the qualifying fixture
input — a recruiter message, no topic mention, classification successful —
the scan raises `AttributeError` at the `is_followup` read (mail.py line
167) immediately after the classification call, so no draft is created,
nothing is skipped, and the scan aborts.  The event trace shows the abort:
the reply generator and the draft append are never invoked.  The repo's own
`test_process_recruiter_emails` (test_mail.py lines 320-335) expects the
claimed drafting behaviour, which the code contradicts. -/
theorem C3_branch_unreachable :
    (process_recruiter_emails recruiterScanEnv).drafts = [] ∧
    (process_recruiter_emails recruiterScanEnv).raised = true ∧
    (process_recruiter_emails recruiterScanEnv).events =
      [MailEvent.connect, MailEvent.getInbox, MailEvent.searchUnread,
       MailEvent.fetchMsg, MailEvent.classifyCall, MailEvent.disconnect] :=
  ⟨rfl, rfl, rfl⟩

/-- C4 counterexample: on the spec's exact input the disclaimer is NOT
dropped, because the pattern `CONFIDENTIAL[^\n]*\n[\s\S]*$` requires a newline
after the marker line and the marker here ends the text; the output retains
the disclaimer text and differs from the claimed `"Important message."`. -/
theorem C4_counterexample :
    clean_email_content "Important message.\n\nCONFIDENTIAL: ..." =
      "Important message. CONFIDENTIAL: ..." ∧
    clean_email_content "Important message.\n\nCONFIDENTIAL: ..." ≠
      "Important message." := by
  constructor
  · rfl
  · decide

/-- C4 amended: truncation at the disclaimer marker happens only when a
newline follows the marker line; with a trailing newline added to the spec's
input the normalized output is exactly `"Important message."`. -/
theorem C4_amended :
    clean_email_content "Important message.\n\nCONFIDENTIAL: ...\n" =
      "Important message." := by
  rfl

/-- C5 counterexample: the normalizer is not idempotent.  Removing the HTML
tag in `ht<b>tp://example.com` splices together a URL that only a second pass
removes, so the second application differs from the first. -/
theorem C5_counterexample :
    clean_email_content "ht<b>tp://example.com" = "http://example.com" ∧
    clean_email_content (clean_email_content "ht<b>tp://example.com") = "" ∧
    clean_email_content (clean_email_content "ht<b>tp://example.com") ≠
      clean_email_content "ht<b>tp://example.com" := by
  refine ⟨rfl, rfl, ?_⟩
  decide

/-- C5 amended: a second application of the normalizer coincides with the
first whenever the first pass's output is left unchanged by the URL-removal,
tag-removal, quoted-reply and forwarded-header passes; the remaining passes
(blank-line collapse, disclaimer truncation, whitespace collapse, edge
stripping) are always the identity on a first pass's output, which is
newline-free and whitespace-normal. -/
theorem C5_amended (x : String)
    (h1 : stripUrls (clean_email_content x).data = (clean_email_content x).data)
    (h2 : stripTags (clean_email_content x).data = (clean_email_content x).data)
    (h3 : truncOnWrote (clean_email_content x).data = (clean_email_content x).data)
    (h4 : truncFwdHeader (clean_email_content x).data = (clean_email_content x).data) :
    clean_email_content (clean_email_content x) = clean_email_content x := by
  obtain ⟨p1, p2, p3, p4⟩ := clean_email_content_props x
  exact clean_email_content_fixed (clean_email_content x)
    (hasNl_eq_false_of_wsOnlySpaceB _ p1) p1 p2 p3 p4 h1 h2 h3 h4

/-- Witness for C5 amended at the concrete input `"Hello, world."`. -/
theorem C5_amended_witness :
    stripUrls (clean_email_content "Hello, world.").data =
        (clean_email_content "Hello, world.").data ∧
    stripTags (clean_email_content "Hello, world.").data =
        (clean_email_content "Hello, world.").data ∧
    truncOnWrote (clean_email_content "Hello, world.").data =
        (clean_email_content "Hello, world.").data ∧
    truncFwdHeader (clean_email_content "Hello, world.").data =
        (clean_email_content "Hello, world.").data ∧
    clean_email_content (clean_email_content "Hello, world.") =
      clean_email_content "Hello, world." :=
  ⟨by decide, by decide, by decide, by decide,
    C5_amended "Hello, world." (by decide) (by decide) (by decide) (by decide)⟩

/-- C6 counterexample: for an original message whose sender is the empty
string (no bracketed address, empty after trimming), the composer does not
fail — no `CompositionError` exists anywhere in the code — and instead
produces a draft whose recipient is the empty string. -/
theorem C6_counterexample :
    create_response_draft
        { subject := "Hello", sender := "", body := "b", date := "d",
          message_id := "<m@x>" } "r" =
      { to_address := "", subject := "Re: Hello", in_reply_to := "<m@x>",
        references := "<m@x>" } := by
  rfl

/-- C6 amended: when the sender has no parseable bracketed address and strips
to the empty string, composition still succeeds and the draft's recipient is
the empty string (mail.py lines 327-331 fall back to `sender.strip()`
unconditionally). -/
theorem C6_amended (subject body date mid response sender : String)
    (h1 : extractAddr sender.data = none) (h2 : pyStrip sender.data = []) :
    (create_response_draft
        { subject := subject, sender := sender, body := body, date := date,
          message_id := mid } response).to_address = "" := by
  simp only [create_response_draft, h1, h2]

/-- Witness for C6 amended at the concrete sender `"   "`. -/
theorem C6_amended_witness :
    extractAddr ("   " : String).data = none ∧
    pyStrip ("   " : String).data = [] ∧
    (create_response_draft
        { subject := "Hi", sender := "   ", body := "b", date := "d",
          message_id := "<m@x>" } "r").to_address = "" :=
  ⟨by decide, by decide, C6_amended "Hi" "b" "d" "<m@x>" "r" "   " (by decide) (by decide)⟩

/-- C7: the draft subject is the original subject when it already starts with
a case-insensitive `re:`, and `"Re: "` prepended to it otherwise. -/
theorem C7_reply_subject (m : EmailMessage) (r : String) :
    (create_response_draft m r).subject =
      if ciStartsWith "re:".data m.subject.data then m.subject
      else "Re: " ++ m.subject := by
  have h := startsWithL_map_lower "re:".data (by decide) m.subject.data
  show (if startsWithL "re:".data (m.subject.data.map asciiLowerChar) then m.subject
        else "Re: " ++ m.subject) = _
  rw [h]

/-- C8: both threading headers of every composed draft equal the original
message identifier verbatim (mail.py lines 373-374). -/
theorem C8_threading (m : EmailMessage) (r : String) :
    (create_response_draft m r).in_reply_to = m.message_id ∧
    (create_response_draft m r).references = m.message_id :=
  ⟨rfl, rfl⟩

/-- C9: every scan, whether it completes normally or exits through a raised
failure at any collaborator call, performs the disconnect exactly once — the
`try/finally` of mail.py lines 161-176 runs `self.disconnect()` on every exit
path and nothing inside the body disconnects. -/
theorem C9_disconnect_once (env : ScanEnv) :
    countDisconnects (process_recruiter_emails env).events = 1 := by
  simp only [process_recruiter_emails]
  rw [countDisconnects_append, countDisconnects_scanBody]
  rfl

/-- C10: for every input, the normalizer output has no newline, no two
adjacent whitespace characters, every whitespace character a single plain
space, and no leading or trailing whitespace. -/
theorem C10_whitespace_normal (s : String) :
    hasNl (clean_email_content s).data = false ∧
    wsCollapsedB (clean_email_content s).data = true ∧
    wsOnlySpaceB (clean_email_content s).data = true ∧
    noLeadWsB (clean_email_content s).data = true ∧
    noTrailWsB (clean_email_content s).data = true := by
  obtain ⟨p1, p2, p3, p4⟩ := clean_email_content_props s
  exact ⟨hasNl_eq_false_of_wsOnlySpaceB _ p1, p2, p1, p3, p4⟩
